import Mathlib

/-!
# Verification of the meily commerce-bot core

A shallow embedding, in Lean 4, of the conversation state machine, the
receipt/payment flow and the broadcast tally of the meily Telegram bot
(Go sources).  Go machine integers are modelled as `Int` (values in all
verified paths stay far below 2^63, so wraparound never occurs and is not
modelled); Go's `rand.Intn` is modelled by an explicit stream of draws
reduced modulo the bound; fallible collaborators (Redis, HTTP, the PDF
reader, the database) are modelled by explicit outcome parameters.
-/

namespace Meily

/-! ## Decimal digits

Embedding of Go's decimal formatting (`fmt.Sprintf("%d", n)`) and parsing
(`strconv.Atoi`).  Digits are produced least-significant first with explicit
fuel so that every definition is structurally recursive and kernel-evaluable.
-/

/-- The character for the decimal digit `d` (`'0'` for 0, …, `'9'` for 9). -/
def digitChar (d : Nat) : Char := Char.ofNat (48 + d)

/-- The numeric value of a decimal digit character. -/
def digitVal (c : Char) : Nat := c.toNat - 48

/-- Least-significant-first decimal digits of `n`, with explicit fuel;
`natDigitsRevFuel fuel 0 = []`. -/
def natDigitsRevFuel : Nat → Nat → List Nat
  | 0, _ => []
  | fuel + 1, n => if n = 0 then [] else n % 10 :: natDigitsRevFuel fuel (n / 10)

/-- Least-significant-first decimal digits of `n` (empty for 0). -/
def natDigitsRev (n : Nat) : List Nat := natDigitsRevFuel n n

/-- Most-significant-first decimal digit values of `n` (`[0]` for 0). -/
def natDecVals (n : Nat) : List Nat :=
  if n = 0 then [0] else (natDigitsRev n).reverse

/-- The decimal digit characters of `n`, most significant first. -/
def natDecChars (n : Nat) : List Char := (natDecVals n).map digitChar

/-- The characters of Go's `fmt.Sprintf("%d", i)` for an `int` value. -/
def intDecChars (i : Int) : List Char :=
  if i < 0 then '-' :: natDecChars i.natAbs else natDecChars i.natAbs

/-- Go's `fmt.Sprintf("%d", i)`. -/
def intDecStr (i : Int) : String := ⟨intDecChars i⟩

theorem natDigitsRevFuel_foldr (fuel : Nat) :
    ∀ n : Nat, n ≤ fuel →
      (natDigitsRevFuel fuel n).foldr (fun d a => a * 10 + d) 0 = n := by
  induction fuel with
  | zero => intro n hn; interval_cases n; simp [natDigitsRevFuel]
  | succ fuel ih =>
    intro n hn
    by_cases h0 : n = 0
    · simp [natDigitsRevFuel, h0]
    · have hdivlt : n / 10 < n := Nat.div_lt_self (Nat.pos_of_ne_zero h0) (by norm_num)
      have hdiv : n / 10 ≤ fuel := by omega
      simp only [natDigitsRevFuel, h0, if_false, List.foldr_cons]
      rw [ih (n / 10) hdiv]
      omega

theorem natDigitsRevFuel_lt_ten (fuel : Nat) :
    ∀ n : Nat, ∀ d ∈ natDigitsRevFuel fuel n, d < 10 := by
  induction fuel with
  | zero => intro n d hd; simp [natDigitsRevFuel] at hd
  | succ fuel ih =>
    intro n d hd
    by_cases h0 : n = 0
    · simp [natDigitsRevFuel, h0] at hd
    · simp only [natDigitsRevFuel, h0, if_false, List.mem_cons] at hd
      rcases hd with h | h
      · subst h; exact Nat.mod_lt n (by norm_num)
      · exact ih (n / 10) d h

theorem natDecVals_lt_ten (n : Nat) : ∀ d ∈ natDecVals n, d < 10 := by
  intro d hd
  unfold natDecVals at hd
  by_cases h0 : n = 0
  · simp [h0] at hd; omega
  · simp only [h0, if_false, List.mem_reverse] at hd
    exact natDigitsRevFuel_lt_ten n n d hd

theorem natDecVals_ne_nil (n : Nat) : natDecVals n ≠ [] := by
  unfold natDecVals
  by_cases h0 : n = 0
  · simp [h0]
  · have : natDigitsRev n ≠ [] := by
      unfold natDigitsRev
      cases n with
      | zero => exact absurd rfl h0
      | succ m => simp [natDigitsRevFuel]
    simp only [h0, if_false, ne_eq, List.reverse_eq_nil_iff]
    exact this

/-- The most-significant-first fold of the decimal digit values recovers `n`. -/
theorem natDecVals_foldl (n : Nat) :
    (natDecVals n).foldl (fun a d => a * 10 + d) 0 = n := by
  unfold natDecVals
  by_cases h0 : n = 0
  · simp [h0]
  · simp only [h0, if_false, List.foldl_reverse]
    exact natDigitsRevFuel_foldr n n le_rfl

theorem digitVal_digitChar {d : Nat} (h : d < 10) : digitVal (digitChar d) = d := by
  interval_cases d <;> decide

theorem isDigit_digitChar {d : Nat} (h : d < 10) : (digitChar d).isDigit = true := by
  interval_cases d <;> decide

theorem digitChar_ne_minus {d : Nat} (h : d < 10) : digitChar d ≠ '-' := by
  interval_cases d <;> decide

theorem digitChar_ne_plus {d : Nat} (h : d < 10) : digitChar d ≠ '+' := by
  interval_cases d <;> decide

theorem digitChar_ne_underscore {d : Nat} (h : d < 10) : digitChar d ≠ '_' := by
  interval_cases d <;> decide

theorem natDecChars_all_digits (n : Nat) :
    ∀ c ∈ natDecChars n, c.isDigit = true := by
  intro c hc
  unfold natDecChars at hc
  obtain ⟨d, hd, rfl⟩ := List.mem_map.mp hc
  exact isDigit_digitChar (natDecVals_lt_ten n d hd)

/-! ## `strconv.Atoi`

`atoiChars` embeds Go's `strconv.Atoi` (src: standard library, as used by
`CountHandler` and `ParsePrice`): optional sign, a nonempty run of decimal
digits, and an error once the value leaves the 64-bit `int` range. -/

/-- Largest Go `int` value. -/
def maxInt64 : Nat := 9223372036854775807

/-- Decimal value of a nonempty all-digit character list, `none` otherwise. -/
def atoiNat (ds : List Char) : Option Nat :=
  match ds with
  | [] => none
  | _ =>
    if ds.all Char.isDigit then
      some (ds.foldl (fun a c => a * 10 + digitVal c) 0)
    else none

/-- Go's `strconv.Atoi` on a character list. -/
def atoiChars (cs : List Char) : Option Int :=
  match cs with
  | [] => none
  | c :: rest =>
    if c = '-' then
      match atoiNat rest with
      | some v => if v ≤ maxInt64 + 1 then some (-(v : Int)) else none
      | none => none
    else if c = '+' then
      match atoiNat rest with
      | some v => if v ≤ maxInt64 then some (v : Int) else none
      | none => none
    else
      match atoiNat (c :: rest) with
      | some v => if v ≤ maxInt64 then some (v : Int) else none
      | none => none

/-- Go's `strconv.Atoi`. -/
def atoi (s : String) : Option Int := atoiChars s.data

theorem foldl_digitVal_map (l : List Nat) (h : ∀ d ∈ l, d < 10) :
    ∀ a : Nat, (l.map digitChar).foldl (fun a c => a * 10 + digitVal c) a
      = l.foldl (fun a d => a * 10 + d) a := by
  induction l with
  | nil => intro a; simp
  | cons d t ih =>
    intro a
    have hd : d < 10 := h d (List.mem_cons_self d t)
    simp only [List.map_cons, List.foldl_cons, digitVal_digitChar hd]
    exact ih (fun x hx => h x (List.mem_cons_of_mem d hx)) _

theorem atoiNat_natDecChars (n : Nat) : atoiNat (natDecChars n) = some n := by
  have hne : natDecChars n ≠ [] := by
    unfold natDecChars
    simp only [ne_eq, List.map_eq_nil_iff]
    exact natDecVals_ne_nil n
  have hall : (natDecChars n).all Char.isDigit = true :=
    List.all_eq_true.mpr (fun c hc => natDecChars_all_digits n c hc)
  unfold atoiNat
  match hE : natDecChars n with
  | [] => exact absurd hE hne
  | c :: rest =>
    rw [← hE, hall]
    simp only [if_true]
    unfold natDecChars
    rw [foldl_digitVal_map _ (natDecVals_lt_ten n), natDecVals_foldl]

theorem atoiChars_natDecChars (n : Nat) (hn : n ≤ maxInt64) :
    atoiChars (natDecChars n) = some (n : Int) := by
  have hvals := natDecVals_lt_ten n
  unfold natDecChars at *
  match hE : natDecVals n with
  | [] => exact absurd hE (natDecVals_ne_nil n)
  | d :: rest =>
    have hd : d < 10 := hvals d (by rw [hE]; exact List.mem_cons_self d rest)
    have h1 : digitChar d ≠ '-' := digitChar_ne_minus hd
    have h2 : digitChar d ≠ '+' := digitChar_ne_plus hd
    have := atoiNat_natDecChars n
    unfold natDecChars at this
    rw [hE] at this
    simp only [List.map_cons] at this
    simp only [List.map_cons, atoiChars, h1, if_false, h2, this, hn, if_true]

/-! ## Price helpers

`formatPrice` embeds `FormatPrice` (src/traits/helper/helper.go lines 6-20):
the decimal string of the price, with a space inserted before index `i`
whenever `i > 0` and `(len-i) % 3 == 0`.  `parsePrice` embeds `ParsePrice`
(src/unnamed/part_012 lines 12-20): strip every non-digit character, error
when nothing remains, then `strconv.Atoi`.  (The verified strings are ASCII,
so Go's byte indices coincide with character indices.) -/

/-- Go condition `i > 0 && (len(str)-i)%3 == 0` from `FormatPrice`. -/
def spaceBefore (len i : Nat) : Bool := (i != 0) && ((len - i) % 3 == 0)

/-- The thousands-spaced character list built by `FormatPrice`'s loop. -/
def spacedChars (str : List Char) : List Char :=
  (str.enum.map fun p =>
    if spaceBefore str.length p.1 then [' ', p.2] else [p.2]).flatten

/-- `FormatPrice` (src/traits/helper/helper.go). -/
def formatPrice (price : Int) : String :=
  let str := intDecChars price
  if str.length ≤ 3 then ⟨str⟩ else ⟨spacedChars str⟩

/-- `ParsePrice` (src/unnamed/part_012). -/
def parsePrice (raw : String) : Option Int :=
  let digits := raw.data.filter Char.isDigit
  if digits = [] then none else atoiChars digits

theorem filter_isDigit_join_map (cond : Nat × Char → Bool) :
    ∀ l : List (Nat × Char), (∀ p ∈ l, (p.2).isDigit = true) →
      ((l.map fun p => if cond p then [' ', p.2] else [p.2]).flatten).filter
          Char.isDigit
        = l.map Prod.snd := by
  intro l
  induction l with
  | nil => intro _; simp
  | cons p t ih =>
    intro h
    have hp : (p.2).isDigit = true := h p (List.mem_cons_self p t)
    have ht := ih (fun q hq => h q (List.mem_cons_of_mem p hq))
    simp only [List.map_cons, List.flatten_cons, List.filter_append, ht]
    by_cases hc : cond p
    · simp [hc, List.filter, hp]
    · simp [hc, List.filter, hp]

theorem filter_isDigit_spacedChars (str : List Char)
    (h : ∀ c ∈ str, c.isDigit = true) :
    (spacedChars str).filter Char.isDigit = str := by
  unfold spacedChars
  rw [filter_isDigit_join_map]
  · exact List.enum_map_snd str
  · intro p hp
    have : p.2 ∈ str := by
      have := List.mem_map_of_mem Prod.snd hp
      rwa [List.enum_map_snd] at this
    exact h _ this

/-- **C9.** Round-trip of the price helpers: for every value `n` a Go `int`
can hold (`0 ≤ n ≤ 2^63 - 1`), parsing the thousands-separated string
produced by `FormatPrice` returns exactly `n`:
`ParsePrice (FormatPrice n) = n` with no error. -/
theorem parsePrice_formatPrice_roundtrip (n : Nat) (hn : n ≤ maxInt64) :
    parsePrice (formatPrice (n : Int)) = some (n : Int) := by
  have hneg : ¬ ((n : Int) < 0) := by exact_mod_cast Int.not_lt.mpr (Int.ofNat_nonneg n)
  have habs : ((n : Int)).natAbs = n := Int.natAbs_ofNat n
  have hchars : intDecChars (n : Int) = natDecChars n := by
    unfold intDecChars
    simp [hneg, habs]
  have hdigits : ∀ c ∈ natDecChars n, c.isDigit = true := natDecChars_all_digits n
  have hne : natDecChars n ≠ [] := by
    unfold natDecChars
    simp only [ne_eq, List.map_eq_nil_iff]
    exact natDecVals_ne_nil n
  unfold formatPrice parsePrice
  rw [hchars]
  by_cases hlen : (natDecChars n).length ≤ 3
  · simp only [hlen, if_true]
    have hfilter : (natDecChars n).filter Char.isDigit = natDecChars n :=
      List.filter_eq_self.mpr (fun c hc => hdigits c hc)
    simp only [hfilter, hne, if_false]
    exact atoiChars_natDecChars n hn
  · simp only [hlen, if_false]
    have hfilter : (spacedChars (natDecChars n)).filter Char.isDigit
        = natDecChars n := filter_isDigit_spacedChars _ hdigits
    simp only [hfilter, hne, if_false]
    exact atoiChars_natDecChars n hn

/-- Witness for C9 at `n = 1234567` (formats as `"1 234 567"`). -/
theorem parsePrice_formatPrice_roundtrip_witness :
    (1234567 : Nat) ≤ maxInt64 ∧
      parsePrice (formatPrice ((1234567 : Nat) : Int)) = some ((1234567 : Nat) : Int) :=
  ⟨by decide, parsePrice_formatPrice_roundtrip 1234567 (by decide)⟩

/-! ## Data model

`ConvState` embeds the state constants of src/unnamed/part_006 lines 26-33;
`UserState` embeds `domain.UserState` (src/unnamed/part_003 lines 16-22);
`Config` embeds the fields of `config.Config` consumed by the verified
handlers; `LotoEntry` embeds the fields of `domain.LotoEntry` the handlers
write (the receipt path and payment date, free-form strings derived from the
wall clock, are not modelled); `PdfResult` embeds `domain.PdfResult`. -/

inductive ConvState where
  | start
  | count
  | paid
  | contact
  | adminPanel
  | broadcast
deriving DecidableEq, Repr

structure UserState where
  state : ConvState
  broadCastType : String := ""
  count : Int := 0
  contact : String := ""
  isPaid : Bool := false
deriving DecidableEq, Repr

structure Config where
  cost : Int
  bin : String
  adminID : Int
deriving DecidableEq, Repr

structure Doc where
  fileName : String
  fileID : String
deriving DecidableEq, Repr

structure LotoEntry where
  userID : Int
  lotoID : Nat
  qr : String
deriving DecidableEq, Repr

structure PdfResult where
  total : Int
  actualPrice : Int
  bin : String
  qr : String
deriving DecidableEq, Repr

/-- The default state built on a Redis read failure or a missing record
(src/unnamed/part_006 lines 158-171): `stateStart`, count 0, unpaid. -/
def defaultUserState : UserState :=
  { state := .start, count := 0, isPaid := false }

/-- `getOrCreateUserState` (src/unnamed/part_006 lines 151-181).  The Redis
read outcome is passed explicitly: `.error` = Redis failure, `.ok none` =
no record for the user, `.ok (some s)` = record `s`.  On failure or absence
the safe default `Start` state is used for the interaction (on absence the
code additionally attempts a best-effort save of the default, which does not
change the returned state). -/
def getOrCreateUserState (readResult : Except Unit (Option UserState)) : UserState :=
  match readResult with
  | .error _ => defaultUserState
  | .ok none => defaultUserState
  | .ok (some s) => s

/-- `Validator` (src/unnamed/part_012 lines 22-33): accept iff the actual
price equals `Total × cost` and the BIN matches; `some msg` = reject. -/
def validatorErr (cfg : Config) (pdfData : PdfResult) : Option String :=
  if pdfData.actualPrice ≠ pdfData.total * cfg.cost then some "price is not correct"
  else if pdfData.bin ≠ cfg.bin then some "wrong bin number"
  else none

/-- `filepath.Ext`: the suffix of the name starting at the final dot
(`""` when the name has no dot; the verified file names contain no path
separators). -/
def fileExt (name : String) : String :=
  if name.data.contains '.' then
    ⟨'.' :: (name.data.reverse.takeWhile (fun c => c ≠ '.')).reverse⟩
  else ""

/-- `strings.EqualFold(filepath.Ext(name), ".pdf")` (ASCII case folding
suffices for this comparison). -/
def hasPdfExt (name : String) : Bool :=
  (fileExt name).data.map Char.toLower = ['.', 'p', 'd', 'f']

/-- `strings.Split(s, sep)` for a single-character separator. -/
def splitChar (sep : Char) : List Char → List (List Char)
  | [] => [[]]
  | c :: rest =>
    match splitChar sep rest with
    | [] => [[]]
    | h :: t => if c = sep then [] :: h :: t else (c :: h) :: t

/-- `strings.HasPrefix`: `l` is an initial segment of `m`. -/
def isInitOf : List Char → List Char → Bool
  | [], _ => true
  | _ :: _, [] => false
  | a :: as, b :: bs => a = b && isInitOf as bs

/-! ## Handler effects and collaborator outcomes -/

/-- The observable effects of one handler invocation: the state written to
Redis (`none` = no write attempted), whether `DeleteUserState` was called,
the texts sent by `SendMessage`, the captions of media sends, the lottery
entries persisted by `InsertLoto`, whether a client record was inserted, and
— as instrumentation of `totalSum := userCount * h.cfg.Cost` in
`CountHandler` — the price computed during the step, if any. -/
structure Effects where
  saved : Option UserState := none
  deleted : Bool := false
  sentTexts : List String := []
  sentMedia : List String := []
  lotoInserted : List LotoEntry := []
  clientInserted : Bool := false
  priceComputed : Option Int := none
deriving DecidableEq, Repr

/-- A handler invocation either completes with effects or hits a Go runtime
panic (nil-pointer dereference or out-of-range index present in the source). -/
inductive Outcome where
  | panicked
  | done (eff : Effects)
deriving DecidableEq, Repr

/-- The state write attempted by the step (`none` after a panic). -/
def Outcome.savedVal : Outcome → Option UserState
  | .panicked => none
  | .done e => e.saved

/-- The lottery entries persisted by the step (those inserted before a panic
are kept by the database, but no verified path panics mid-loop). -/
def Outcome.insertedVal : Outcome → List LotoEntry
  | .panicked => []
  | .done e => e.lotoInserted

/-- The texts sent during the step. -/
def Outcome.textsVal : Outcome → List String
  | .panicked => []
  | .done e => e.sentTexts

/-- The price computed during the step, if any. -/
def Outcome.priceVal : Outcome → Option Int
  | .panicked => none
  | .done e => e.priceComputed

/-- Whether the step deleted the stored conversation state. -/
def Outcome.deletedVal : Outcome → Bool
  | .panicked => false
  | .done e => e.deleted

/-- Outcomes of the external collaborators consulted during one step, passed
explicitly.  `redisRead` is the result of `GetUserState` (each handler reads
at most once per step beyond the dispatcher; the two reads of one step are
assumed to observe the same stored value).  `readPdf` is the result of
`service.ReadPDF` on the downloaded receipt.  `rng i` is the `i`-th draw of
`math/rand` (reduced mod the bound at use).  `insertOk i` is the success of
the `i`-th `InsertLoto`. -/
structure StepEnv where
  redisRead : Except Unit (Option UserState) := .ok none
  getFileOk : Bool := true
  httpGetOk : Bool := true
  mkdirOk : Bool := true
  createOk : Bool := true
  copyOk : Bool := true
  readPdf : Except Unit (List String) := .error ()
  saveOk : Bool := true
  rng : Nat → Nat := fun _ => 0
  insertOk : Nat → Bool := fun _ => true
  clientUniqueOk : Bool := true

/-! ## Message texts (src/unnamed/part_006) -/

def pdfOnlyMsg : String :=
  "❌ Қате! Тек қана PDF форматындағы файлдарды қабылдаймыз."

def retryMsg : String := "Дұрыс емес pdf file, қайталап көріңіз"

def paidAcceptMsg : String :=
  "✅ Чек PDF сәтті қабылданды! Cізбен кері байланысқа шығу үшін контактіні бөлісу түймесін басыңыз."

def askContactMsg : String :=
  "Cізбен кері байланысқа шығу үшін контактіні 📲 бөлісу түймесін басыңыз."

def chooseCountMsg : String := "🧴 Косметика санын таңдаңыз 🧴"

/-- Payment-instruction text of `CountHandler` (src/unnamed/part_006 line 532). -/
def payMsg (totalSum : Int) : String :=
  "✅ Тамаша! Енді төмендегі сілтемеге өтіп " ++ intDecStr totalSum ++
    " теңге төлем жасап, төлемді растайтын чекті PDF форматында ботқа кері жіберіңіз."

def contactAcceptedCaption : String :=
  "✅ Контактіңіз сәтті алынды! 😊\nКосметикалық жинақты қай мекен-жайға жеткізу керек екенін көрсетіңіз. 🚚\n⤵️ Мекен-жайыңызды енгізу үшін батырманы басыңыз👇\nТолығырақ 📹 видео инструкцияда"

def promoCaption : String :=
  "18 900 теңгеге косметикалық жиынтық сатып алыңыз және сыйлықтар ұтып алыңыз!"

/-- `fmt.Sprintf("%08d", t)`: zero-padded 8-wide decimal. -/
def pad8 (t : Nat) : List Char :=
  let ds := natDecChars t
  List.replicate (8 - ds.length) '0' ++ ds

/-- The ticket list sent by `JustPaid` (src/unnamed/part_006 lines 296-301). -/
def ticketListText (tickets : List Nat) : String :=
  "🎟️ Сізге берілген " ++ intDecStr (tickets.length : Int) ++ " билеті:\n\n" ++
    String.mk ((tickets.map (fun t => '•' :: pad8 t ++ ['\n'])).flatten)

/-- The acceptance message of `JustPaid` (src/unnamed/part_006 line 305). -/
def justPaidAcceptMsg (tickets : List Nat) : String :=
  "✅ Чек PDF сәтті қабылданды!\nCізбен кері байланысқа шығу үшін төмендегі\n📲 Контактіні бөлісу түймесін 👇 міндетті басыңыз.\n\n" ++
    ticketListText tickets

/-! ## The purchase-flow handlers (src/unnamed/part_006)

Each handler is embedded as a pure function of the event data and the
collaborator outcomes, returning its `Outcome`.  Control flow follows the
source line by line; in particular `PaidHandler`'s missing `return`
statements after the two retry messages, and the runtime panics present in
the source (`result[i]` on a short extraction, `state.Count` on a nil state,
division by a zero `Cost`), are reproduced, not repaired. -/

/-- The `InsertLoto` loop of `JustPaid` (src/unnamed/part_006 lines 269-282),
iterating `k` times starting at draw index `i`: each round draws
`rand.Intn(90000000) + 10000000`, persists the entry, and appends the ticket;
an insert failure aborts the handler, keeping the entries already inserted.
Returns (entries inserted, tickets collected, completed without error). -/
def lotoLoop (uid : Int) (qr : String) (rng : Nat → Nat) (insertOk : Nat → Bool) :
    Nat → Nat → List LotoEntry × List Nat × Bool
  | _, 0 => ([], [], true)
  | i, k + 1 =>
    let lotoId := rng i % 90000000 + 10000000
    if insertOk i then
      let rest := lotoLoop uid qr rng insertOk (i + 1) k
      ({ userID := uid, lotoID := lotoId, qr := qr } :: rest.1,
        lotoId :: rest.2.1, rest.2.2)
    else ([], [], false)

/-- `JustPaid` (src/unnamed/part_006 lines 183-311): the receipt path for a
user whose state is neither `paid` nor `contact`.  Validates the `.pdf`
extension, downloads and stores the file, extracts its text, parses the paid
amount from line 2, derives `total = actualPrice / Cost`, validates, saves
the new `contact` state, inserts `3 × total` lottery entries and sends the
ticket list.  Any collaborator failure before the loop aborts with no state
change. -/
def justPaid (cfg : Config) (uid : Int) (doc : Doc) (env : StepEnv) : Outcome :=
  if ¬ hasPdfExt doc.fileName then .done { sentTexts := [pdfOnlyMsg] }
  else if ¬ env.getFileOk then .done {}
  else if ¬ env.httpGetOk then .done {}
  else if ¬ env.mkdirOk then .done {}
  else if ¬ env.createOk then .done {}
  else if ¬ env.copyOk then .done {}
  else
    match env.readPdf with
    | .error _ => .done {}
    | .ok result =>
      if result.length ≤ 2 then .panicked
      else
        match parsePrice (result.getD 2 "") with
        | none => .done {}
        | some actualPrice =>
          if cfg.cost = 0 then .panicked
          else
            let total := Int.tdiv actualPrice cfg.cost
            let totalLoto := total * 3
            if result.length ≤ 3 then .panicked
            else
              let qr := result.getD 3 ""
              let pdfData : PdfResult :=
                { total := total, actualPrice := actualPrice, bin := cfg.bin, qr := qr }
              if (validatorErr cfg pdfData).isSome then .done {}
              else
                let newState : UserState :=
                  { state := .contact, count := total, isPaid := true }
                if ¬ env.saveOk then .done {}
                else
                  let r := lotoLoop uid qr env.rng env.insertOk 0 totalLoto.toNat
                  if ¬ r.2.2 then .done { saved := some newState, lotoInserted := r.1 }
                  else .done { saved := some newState, lotoInserted := r.1,
                               sentTexts := [justPaidAcceptMsg r.2.1] }

/-- `PaidHandler` (src/unnamed/part_006 lines 543-659): the receipt path for
a user in the `paid` phase.  After a parse or validator failure a retry
message is sent but execution continues; the handler then unconditionally
sets `IsPaid = true`, moves the state to `contact`, saves it and sends the
acceptance message. -/
def paidHandler (cfg : Config) (uid : Int) (docOpt : Option Doc) (env : StepEnv) :
    Outcome :=
  match docOpt with
  | none => .done {}
  | some doc =>
    if ¬ hasPdfExt doc.fileName then .done { sentTexts := [pdfOnlyMsg] }
    else if ¬ env.getFileOk then .done {}
    else if ¬ env.httpGetOk then .done {}
    else if ¬ env.mkdirOk then .done {}
    else if ¬ env.createOk then .done {}
    else if ¬ env.copyOk then .done {}
    else
      -- `ReadPDF` errors are only logged; `result` is nil on error.
      let result := match env.readPdf with
        | .ok lines => lines
        | .error _ => []
      if result.length ≤ 3 then .panicked
      else
        match env.redisRead with
        | .error _ => .panicked
        | .ok none => .panicked
        | .ok (some state) =>
          let line3 := result.getD 3 ""
          let parsed := parsePrice line3
          let priceInt : Int := (parsed).getD 0
          let pdf : PdfResult :=
            { total := state.count, actualPrice := priceInt, qr := line3, bin := cfg.bin }
          let retry1 : List String := if parsed.isNone then [retryMsg] else []
          let retry2 : List String :=
            if (validatorErr cfg pdf).isSome then [retryMsg] else []
          let newState : UserState := { state with isPaid := true, state := .contact }
          .done { saved := some newState,
                  sentTexts := retry1 ++ retry2 ++ [paidAcceptMsg] }

/-- `CountHandler` (src/unnamed/part_006 lines 486-541): on a
`count_<n>` callback, parse `n`, compute `totalSum = n × Cost`, save the
`paid` state with count `n` and send the payment instructions.  A message
event (`cbData = none`), a foreign callback, a malformed split or an
unparsable number all leave every store untouched. -/
def countHandler (cfg : Config) (uid : Int) (cbData : Option String) : Outcome :=
  match cbData with
  | none => .done {}
  | some data =>
    if ¬ isInitOf "count_".data data.data then .done {}
    else
      let choice := splitChar '_' data.data
      if choice.length ≠ 2 then .done {}
      else
        match atoiChars (choice.getD 1 []) with
        | none => .done {}
        | some userCount =>
          let totalSum := userCount * cfg.cost
          .done { saved := some { state := .paid, count := userCount, isPaid := false },
                  priceComputed := some totalSum,
                  sentTexts := [payMsg totalSum] }

/-- `BuyCosmeticsCallbackHandler` (src/unnamed/part_006 lines 436-484):
on the `buy_cosmetics` callback, save the `count` state (count 0, unpaid)
and present the quantity menu. -/
def buyCosmetics (cfg : Config) (uid : Int) (data : String) : Outcome :=
  if data ≠ "buy_cosmetics" then .done {}
  else .done { saved := some { state := .count, count := 0, isPaid := false },
               sentTexts := [chooseCountMsg] }

/-- `ShareContactCallbackHandler` (src/unnamed/part_006 lines 661-790): with
no contact payload, re-prompt and stop.  With a contact, read the state
(falling back to `{contact, 1, paid}` on a Redis error — note the fallback
resets `Count` to 1), store the phone number, insert a client record, send
the address prompt and delete the conversation state (the reset).  A missing
state skips the save and then dereferences the nil state (source line 761),
unless the uniqueness check fails first. -/
def shareContact (cfg : Config) (uid : Int) (contactOpt : Option String)
    (env : StepEnv) : Outcome :=
  match contactOpt with
  | none => .done { sentTexts := [askContactMsg] }
  | some phone =>
    match env.redisRead with
    | .ok none =>
      if ¬ env.clientUniqueOk then .done {} else .panicked
    | .error _ =>
      let st : UserState :=
        { state := .contact, count := 1, isPaid := true, contact := phone }
      if ¬ env.clientUniqueOk then .done { saved := some st }
      else .done { saved := some st, clientInserted := true,
                   sentMedia := [contactAcceptedCaption], deleted := true }
    | .ok (some s) =>
      let st := { s with contact := phone }
      if ¬ env.clientUniqueOk then .done { saved := some st }
      else .done { saved := some st, clientInserted := true,
                   sentMedia := [contactAcceptedCaption], deleted := true }

/-! ## Event routing

`systemStep` embeds how one inbound update from a **non-admin** user is
processed by the application wiring (src/unnamed/part_000 lines 56-70
together with `DefaultHandler`, src/unnamed/part_006 lines 313-405):
callbacks matching the globally registered `buy_cosmetics` / `count_`
prefixes go straight to their handlers regardless of the stored phase;
messages whose text matches a registered admin label go to `AdminHandler`,
which returns immediately for a non-admin sender (src/unnamed/part_005 line
141); everything else goes to `DefaultHandler`, which loads the state and
dispatches on the phase.  The `adminPanel`/`broadcast` phases are
unreachable for non-admin users and their handlers return immediately for
them, so those branches produce no effects.  (The user-registration 
bookkeeping `ExistsJust`/`InsertJust` touches no conversation state and is
not modelled.) -/

/-- A message update: text, optional document, optional contact payload. -/
structure Msg where
  text : String := ""
  doc : Option Doc := none
  contact : Option String := none
deriving DecidableEq, Repr

/-- An inbound update: a callback query or a message. -/
inductive Event where
  | cb (data : String)
  | msg (m : Msg)
deriving DecidableEq, Repr

/-- The exact-match texts registered to `AdminHandler`
(src/unnamed/part_000 lines 61-69). -/
def adminTexts : List String :=
  ["/admin", "💰 Ақша (Money)", "👥 Тіркелгендер (Just Clicked)",
   "🛍 Клиенттер (Clients)", "🎲 Лото (Loto)", "📢 Хабарлама (Messages)",
   "🎁 Сыйлық (Gift)", "📊 Статистика (Statistics)", "❌ Жабу (Close)"]

/-- The phase-dispatch switch of `DefaultHandler`
(src/unnamed/part_006 lines 389-404) for a message update. -/
def dispatchByState (cfg : Config) (uid : Int) (m : Msg) (st : UserState)
    (env : StepEnv) : Outcome :=
  match st.state with
  | .start => .done { sentMedia := [promoCaption] }
  | .count => countHandler cfg uid none
  | .paid => paidHandler cfg uid m.doc env
  | .contact => shareContact cfg uid m.contact env
  | .adminPanel => .done {}
  | .broadcast => .done {}

/-- `DefaultHandler` (src/unnamed/part_006 lines 313-405) for a message
update from a non-admin user: load (or default) the state; a document from a
user in neither `paid` nor `contact` goes to `JustPaid`; otherwise dispatch
on the phase. -/
def defaultHandlerMsg (cfg : Config) (uid : Int) (m : Msg) (env : StepEnv) :
    Outcome :=
  let st := getOrCreateUserState env.redisRead
  match m.doc with
  | some doc =>
    if st.state ≠ .paid ∧ st.state ≠ .contact then justPaid cfg uid doc env
    else dispatchByState cfg uid m st env
  | none => dispatchByState cfg uid m st env

/-- One processing step for an update from a non-admin user (see section
comment). -/
def systemStep (cfg : Config) (uid : Int) (ev : Event) (env : StepEnv) :
    Outcome :=
  match ev with
  | .cb data =>
    if isInitOf "buy_cosmetics".data data.data then buyCosmetics cfg uid data
    else if isInitOf "count_".data data.data then countHandler cfg uid (some data)
    else .done {}
  | .msg m =>
    if m.text ∈ adminTexts then .done {}
    else defaultHandlerMsg cfg uid m env

/-! ## Broadcast engine (src/internal/handler/admin-handler.go)

The fan-out loop (lines 199-250) schedules one task per recipient; a task
first waits on the shared rate limiter (which fails only when the context is
cancelled), then calls `sendToUser` and atomically increments exactly one of
`successCount`/`failedCount` — `failedCount` when `sendToUser` returned an
error, `successCount` otherwise.  The increments are atomic and commutative,
so the final counter values equal the order-independent sum of the
per-task contributions, which the fold below computes.  `waitOk u` is
whether recipient `u`'s rate-limiter wait succeeded (always true when the
context is never cancelled); `sendOk u` is whether the messenger delivered
to `u`. -/

/-- The payload kinds produced by `parseMessage`
(src/internal/handler/admin-handler.go lines 522-545). -/
inductive MsgKind where
  | text
  | photo
  | video
  | document
  | videoNote
  | audio
  | location
  | contactInfo
  | empty
deriving DecidableEq, Repr

/-- The kinds `sendToUser` actually sends
(src/internal/handler/admin-handler.go lines 497-520); every other kind
falls through to `default: return nil`. -/
def supportedKind : MsgKind → Bool
  | .text | .photo | .video | .document | .videoNote | .audio => true
  | _ => false

/-- Whether `sendToUser` returns an error: only a supported kind whose
messenger call failed does; an unsupported kind is a no-op returning `nil`. -/
def sendToUserErr (kind : MsgKind) (sendOk : Bool) : Bool :=
  if supportedKind kind then ¬ sendOk else false

/-- The contribution of one recipient's task to
(`successCount`, `failedCount`). -/
def broadcastTask (kind : MsgKind) (waitOk sendOk : Bool) : Nat × Nat :=
  if ¬ waitOk then (0, 0)
  else if sendToUserErr kind sendOk then (0, 1)
  else (1, 0)

/-- Final (`successCount`, `failedCount`) after all tasks of the fan-out
loop have finished. -/
def broadcastTally (kind : MsgKind) (waitOk sendOk : Int → Bool) :
    List Int → Nat × Nat
  | [] => (0, 0)
  | u :: rest =>
    let t := broadcastTask kind (waitOk u) (sendOk u)
    let r := broadcastTally kind waitOk sendOk rest
    (t.1 + r.1, t.2 + r.2)

/-! ## Claim theorems -/

/-- **C3.** For every broadcast over an audience of `N` recipients that runs
to completion without cancellation (every rate-limiter wait succeeds), the
final tally satisfies `successCount + failureCount = N`: each per-recipient
task increments exactly one of the two counters. -/
theorem broadcast_success_add_failure_eq_total (kind : MsgKind)
    (waitOk sendOk : Int → Bool) (audience : List Int)
    (hnc : ∀ u ∈ audience, waitOk u = true) :
    (broadcastTally kind waitOk sendOk audience).1
      + (broadcastTally kind waitOk sendOk audience).2 = audience.length := by
  induction audience with
  | nil => simp [broadcastTally]
  | cons u rest ih =>
    have hu : waitOk u = true := hnc u (List.mem_cons_self u rest)
    have hr := ih (fun x hx => hnc x (List.mem_cons_of_mem u hx))
    simp only [broadcastTally, broadcastTask, hu, not_true, if_false,
      List.length_cons]
    cases hs : sendToUserErr kind (sendOk u)
    · simp only [hs, Bool.false_eq_true, if_false]
      omega
    · simp only [hs, if_true]
      omega

/-- Witness for C3: three recipients, no cancellation, all sends succeed. -/
theorem broadcast_success_add_failure_eq_total_witness :
    (broadcastTally .text (fun _ => true) (fun _ => true) [1, 2, 3]).1
      + (broadcastTally .text (fun _ => true) (fun _ => true) [1, 2, 3]).2
      = ([1, 2, 3] : List Int).length :=
  broadcast_success_add_failure_eq_total .text (fun _ => true) (fun _ => true)
    [1, 2, 3] (fun _ _ => rfl)

/-- **C4 (counterexample).** For an audience of one recipient and the
unsupported payload kind `location`, the per-recipient no-op send returns
`nil` and the tally counts it as a **success**: the final tally is `(1, 0)`,
so `successCount + failureCount < N` is false and `successCount` was
incremented — contradicting the claim that neither counter is incremented. -/
theorem unsupported_kind_tally_counterexample :
    broadcastTally .location (fun _ => true) (fun _ => true) [7] = (1, 0) ∧
      ¬ ((broadcastTally .location (fun _ => true) (fun _ => true) [7]).1
          + (broadcastTally .location (fun _ => true) (fun _ => true) [7]).2
          < ([7] : List Int).length) := by
  decide

/-- **C4 (amended).** For a broadcast whose payload kind is not one of the
supported kinds, the per-recipient send is a no-op returning `nil`, which
the loop counts as a success: absent cancellation the final tally is
`(N, 0)`, so `successCount + failureCount = N` (not `< N`). -/
theorem unsupported_kind_counts_as_success (kind : MsgKind)
    (hk : supportedKind kind = false) (waitOk sendOk : Int → Bool)
    (audience : List Int) (hnc : ∀ u ∈ audience, waitOk u = true) :
    broadcastTally kind waitOk sendOk audience = (audience.length, 0) := by
  induction audience with
  | nil => simp [broadcastTally]
  | cons u rest ih =>
    have hu : waitOk u = true := hnc u (List.mem_cons_self u rest)
    have hr := ih (fun x hx => hnc x (List.mem_cons_of_mem u hx))
    simp [broadcastTally, broadcastTask, sendToUserErr, hk, hu, hr]
    omega

/-- Witness for the amended C4: two recipients, kind `location`. -/
theorem unsupported_kind_counts_as_success_witness :
    broadcastTally .location (fun _ => true) (fun _ => true) [1, 2]
      = (([1, 2] : List Int).length, 0) :=
  unsupported_kind_counts_as_success .location rfl (fun _ => true)
    (fun _ => true) [1, 2] (fun _ _ => rfl)

/-- **C8.** If reading the user's state from the State Store fails, the state
machine proceeds with the synthetic default state (`Start`, count 0, unpaid)
for that single interaction instead of aborting; and if no state exists for
the user it behaves exactly as in the failure case, i.e. as if the phase
were `Start`: the whole step computes the same outcome. -/
theorem stateStore_fallback_default (e : Unit) (cfg : Config) (uid : Int)
    (m : Msg) (env : StepEnv) :
    getOrCreateUserState (.error e) = defaultUserState ∧
      getOrCreateUserState (.ok none) = defaultUserState ∧
      systemStep cfg uid (.msg m) { env with redisRead := .error e }
        = systemStep cfg uid (.msg m) { env with redisRead := .ok none } :=
  ⟨rfl, rfl, rfl⟩

/-! ## Concrete fixtures (config values from config/config.go) -/

def cfg0 : Config := { cost := 18900, bin := "KZ123", adminID := 800703982 }

def doc0 : Doc := { fileName := "check.pdf", fileID := "f1" }

/-- Collaborator outcomes for a successful receipt: extraction yields four
lines with the paid amount on line 2 and the QR on line 3. -/
def envAccept : StepEnv :=
  { redisRead := .ok none, readPdf := .ok ["Чек", "ATF", "37 800 ₸", "QR123"],
    rng := fun i => i, insertOk := fun _ => true }

theorem lotoLoop_mem_range (uid : Int) (qr : String) (rng : Nat → Nat)
    (insOk : Nat → Bool) :
    ∀ k i, ∀ e ∈ (lotoLoop uid qr rng insOk i k).1,
      10000000 ≤ e.lotoID ∧ e.lotoID ≤ 99999999 := by
  intro k
  induction k with
  | zero => intro i e he; simp [lotoLoop] at he
  | succ k ih =>
    intro i e he
    simp only [lotoLoop] at he
    by_cases hins : insOk i = true
    · simp only [hins, if_true, List.mem_cons] at he
      rcases he with rfl | he
      · refine ⟨by simp, ?_⟩
        have : rng i % 90000000 < 90000000 :=
          Nat.mod_lt (rng i) (by norm_num)
        simp only []
        omega
      · exact ih (i + 1) e he
    · simp only [hins, Bool.false_eq_true, if_false] at he
      simp at he

/-- **C10.** Every lottery ticket number generated on receipt acceptance by
`JustPaid` — `rand.Intn(90000000) + 10000000` — lies in the range
10000000 … 99999999 inclusive: it is always an 8-digit decimal number.
This holds for every collaborator behaviour and every random stream. -/
theorem lottery_ticket_in_range (cfg : Config) (uid : Int) (doc : Doc)
    (env : StepEnv) :
    ∀ e ∈ (justPaid cfg uid doc env).insertedVal,
      10000000 ≤ e.lotoID ∧ e.lotoID ≤ 99999999 := by
  intro e he
  simp only [justPaid] at he
  by_cases h1 : hasPdfExt doc.fileName = true
  swap
  · rw [if_pos h1] at he
    simp only [Outcome.insertedVal] at he
    exact absurd he (List.not_mem_nil e)
  rw [if_neg (not_not_intro h1)] at he
  by_cases h2 : env.getFileOk = true
  swap
  · rw [if_pos h2] at he
    simp only [Outcome.insertedVal] at he
    exact absurd he (List.not_mem_nil e)
  rw [if_neg (not_not_intro h2)] at he
  by_cases h3 : env.httpGetOk = true
  swap
  · rw [if_pos h3] at he
    simp only [Outcome.insertedVal] at he
    exact absurd he (List.not_mem_nil e)
  rw [if_neg (not_not_intro h3)] at he
  by_cases h4 : env.mkdirOk = true
  swap
  · rw [if_pos h4] at he
    simp only [Outcome.insertedVal] at he
    exact absurd he (List.not_mem_nil e)
  rw [if_neg (not_not_intro h4)] at he
  by_cases h5 : env.createOk = true
  swap
  · rw [if_pos h5] at he
    simp only [Outcome.insertedVal] at he
    exact absurd he (List.not_mem_nil e)
  rw [if_neg (not_not_intro h5)] at he
  by_cases h6 : env.copyOk = true
  swap
  · rw [if_pos h6] at he
    simp only [Outcome.insertedVal] at he
    exact absurd he (List.not_mem_nil e)
  rw [if_neg (not_not_intro h6)] at he
  rcases hpdf : env.readPdf with herr | lines
  · rw [hpdf] at he
    simp only [Outcome.insertedVal] at he
    exact absurd he (List.not_mem_nil e)
  rw [hpdf] at he
  simp only [] at he
  by_cases h7 : lines.length ≤ 2
  · rw [if_pos h7] at he
    simp only [Outcome.insertedVal] at he
    exact absurd he (List.not_mem_nil e)
  rw [if_neg h7] at he
  rcases hp : parsePrice (lines.getD 2 "") with _ | p
  · rw [hp] at he
    simp only [Outcome.insertedVal] at he
    exact absurd he (List.not_mem_nil e)
  rw [hp] at he
  simp only [] at he
  by_cases h8 : cfg.cost = 0
  · rw [if_pos h8] at he
    simp only [Outcome.insertedVal] at he
    exact absurd he (List.not_mem_nil e)
  rw [if_neg h8] at he
  by_cases h9 : lines.length ≤ 3
  · rw [if_pos h9] at he
    simp only [Outcome.insertedVal] at he
    exact absurd he (List.not_mem_nil e)
  rw [if_neg h9] at he
  by_cases h10 : (validatorErr cfg
      { total := Int.tdiv p cfg.cost, actualPrice := p, bin := cfg.bin,
        qr := lines.getD 3 "" }).isSome = true
  · rw [if_pos h10] at he
    simp only [Outcome.insertedVal] at he
    exact absurd he (List.not_mem_nil e)
  rw [if_neg h10] at he
  by_cases h11 : env.saveOk = true
  swap
  · rw [if_pos h11] at he
    simp only [Outcome.insertedVal] at he
    exact absurd he (List.not_mem_nil e)
  rw [if_neg (not_not_intro h11)] at he
  by_cases h12 : (lotoLoop uid (lines.getD 3 "") env.rng env.insertOk 0
      (Int.tdiv p cfg.cost * 3).toNat).2.2 = true
  swap
  · rw [if_pos h12] at he
    simp only [Outcome.insertedVal] at he
    exact lotoLoop_mem_range _ _ _ _ _ _ e he
  · rw [if_neg (not_not_intro h12)] at he
    simp only [Outcome.insertedVal] at he
    exact lotoLoop_mem_range _ _ _ _ _ _ e he

/-- Witness for C10: a concrete accepted receipt inserts the entry with
ticket number 10000000, which is in range. -/
theorem lottery_ticket_in_range_witness :
    ({ userID := 42, lotoID := 10000000, qr := "QR123" } : LotoEntry)
        ∈ (justPaid cfg0 42 doc0 envAccept).insertedVal ∧
      10000000 ≤ ({ userID := 42, lotoID := 10000000, qr := "QR123" } : LotoEntry).lotoID ∧
      ({ userID := 42, lotoID := 10000000, qr := "QR123" } : LotoEntry).lotoID ≤ 99999999 :=
  ⟨by decide, lottery_ticket_in_range cfg0 42 doc0 envAccept _ (by decide)⟩

theorem lotoLoop_all_ok (uid : Int) (qr : String) (rng : Nat → Nat)
    (insOk : Nat → Bool) (hins : ∀ i, insOk i = true) :
    ∀ k i, (lotoLoop uid qr rng insOk i k).2.2 = true ∧
      (lotoLoop uid qr rng insOk i k).1.length = k := by
  intro k
  induction k with
  | zero => intro i; simp [lotoLoop]
  | succ k ih =>
    intro i
    have h := ih (i + 1)
    simp [lotoLoop, hins i, h.1, h.2]

/-- **C2 (amended).** For every receipt accepted by `JustPaid` (extraction
succeeded, the parsed amount is an exact multiple of the unit cost, and
every collaborator call succeeds), the handler persists exactly
`3 × quantity` lottery entries — whose ticket numbers are independent
8-digit random draws, **not** checked for distinctness — and saves the state
with `isPaid = true`, `count = quantity` and phase `contact`
(`AwaitingContact`), where `quantity = actualPrice / Cost`. -/
theorem justPaid_accept_effects (cfg : Config) (uid : Int) (doc : Doc)
    (env : StepEnv) (lines : List String) (p : Int)
    (hext : hasPdfExt doc.fileName = true)
    (h2 : env.getFileOk = true) (h3 : env.httpGetOk = true)
    (h4 : env.mkdirOk = true) (h5 : env.createOk = true)
    (h6 : env.copyOk = true) (hsave : env.saveOk = true)
    (hpdf : env.readPdf = .ok lines) (hlen : 3 < lines.length)
    (hp : parsePrice (lines.getD 2 "") = some p)
    (hcost : cfg.cost ≠ 0)
    (hacc : p = Int.tdiv p cfg.cost * cfg.cost)
    (hins : ∀ i, env.insertOk i = true) :
    (justPaid cfg uid doc env).savedVal
        = some { state := .contact, count := Int.tdiv p cfg.cost, isPaid := true } ∧
      (justPaid cfg uid doc env).insertedVal.length
        = (Int.tdiv p cfg.cost * 3).toNat := by
  have hval : validatorErr cfg
      { total := Int.tdiv p cfg.cost, actualPrice := p, bin := cfg.bin,
        qr := lines.getD 3 "" } = none := by
    unfold validatorErr
    rw [if_neg (not_not_intro hacc), if_neg (not_not_intro rfl)]
  have hloop := lotoLoop_all_ok uid (lines.getD 3 "") env.rng env.insertOk hins
    (Int.tdiv p cfg.cost * 3).toNat 0
  simp only [justPaid]
  rw [if_neg (not_not_intro hext), if_neg (not_not_intro h2),
    if_neg (not_not_intro h3), if_neg (not_not_intro h4),
    if_neg (not_not_intro h5), if_neg (not_not_intro h6), hpdf]
  simp only []
  rw [if_neg (show ¬ lines.length ≤ 2 by omega), hp]
  simp only []
  rw [if_neg hcost, if_neg (show ¬ lines.length ≤ 3 by omega), hval]
  simp only [Option.isSome_none, Bool.false_eq_true, if_false]
  rw [if_neg (not_not_intro hsave), if_neg (not_not_intro hloop.1)]
  simp only [Outcome.savedVal, Outcome.insertedVal]
  exact ⟨trivial, hloop.2⟩

/-- Witness for the amended C2: a receipt for 37 800 ₸ at unit cost 18 900
yields quantity 2, six lottery entries, and the paid `contact` state. -/
theorem justPaid_accept_effects_witness :
    (justPaid cfg0 42 doc0 envAccept).savedVal
        = some { state := .contact, count := Int.tdiv 37800 cfg0.cost, isPaid := true } ∧
      (justPaid cfg0 42 doc0 envAccept).insertedVal.length
        = (Int.tdiv 37800 cfg0.cost * 3).toNat :=
  justPaid_accept_effects cfg0 42 doc0 envAccept
    ["Чек", "ATF", "37 800 ₸", "QR123"] 37800 (by decide) rfl rfl rfl rfl rfl rfl
    rfl (by decide) (by decide) (by decide) (by decide) (fun _ => rfl)

/-- Collaborator outcomes in which `math/rand` repeats a draw. -/
def envDup : StepEnv :=
  { redisRead := .ok none, readPdf := .ok ["Чек", "ATF", "18 900 ₸", "QR123"],
    rng := fun _ => 0, insertOk := fun _ => true }

/-- **C2 (counterexample).** With a random stream that repeats (all draws 0),
an accepted receipt for quantity 1 inserts its `3 × 1` entries with the
**same** ticket number 10000000 three times: the persisted ticket numbers
are not pairwise distinct, refuting the uniqueness part of the claim. -/
theorem justPaid_tickets_not_distinct :
    (justPaid cfg0 42 doc0 envDup).insertedVal.length = 3 ∧
      ¬ ((justPaid cfg0 42 doc0 envDup).insertedVal.map LotoEntry.lotoID).Nodup := by
  decide

/-- Stored state `AwaitingPayment` (quantity 2) and an extraction whose
price line does not match `2 × 18900`: the validator rejects. -/
def envReject : StepEnv :=
  { redisRead := .ok (some { state := .paid, count := 2, isPaid := false }),
    readPdf := .ok ["Чек", "ATF", "x", "10 000 ₸"] }

/-- **C1 (code bug).** A user in `AwaitingPayment` (quantity 2, unpaid)
uploads a PDF whose receipt fails validation (parsed price 10 000 ≠
2 × 18 900).  `PaidHandler` sends the retry message — but, lacking a
`return` after it (src/unnamed/part_006 lines 622-636), it still sets
`isPaid = true`, moves the phase to `contact` and saves that state,
contradicting the claim (and the handler's own retry message) that the
conversation state is left unchanged. -/
theorem paidHandler_reject_flips_state :
    (systemStep cfg0 42 (.msg { doc := some doc0 }) envReject).savedVal
        = some { state := .contact, count := 2, isPaid := true } ∧
      retryMsg ∈ (systemStep cfg0 42 (.msg { doc := some doc0 }) envReject).textsVal := by
  decide

/-- **C5 (amended).** For every message event without a listed transition —
any plain message carrying neither a document nor a contact payload, in any
buyer phase — the step writes no state (so the stored phase is unchanged),
computes no price, inserts no lottery entry and deletes nothing.  (The
claim's original universal quantification over *all* unlisted
`(phase, event-kind)` pairs fails for the globally registered callback
buttons; see the counterexample.) -/
theorem plain_message_preserves_phase (cfg : Config) (uid : Int) (m : Msg)
    (env : StepEnv) (st : UserState)
    (hread : env.redisRead = .ok (some st))
    (hphase : st.state = .start ∨ st.state = .count ∨ st.state = .paid ∨
      st.state = .contact)
    (hdoc : m.doc = none) (hcontact : m.contact = none) :
    (systemStep cfg uid (.msg m) env).savedVal = none ∧
      (systemStep cfg uid (.msg m) env).priceVal = none ∧
      (systemStep cfg uid (.msg m) env).insertedVal = [] ∧
      (systemStep cfg uid (.msg m) env).deletedVal = false := by
  simp only [systemStep]
  by_cases ht : m.text ∈ adminTexts
  · rw [if_pos ht]; exact ⟨rfl, rfl, rfl, rfl⟩
  · rw [if_neg ht]
    simp only [defaultHandlerMsg, hread, hdoc, getOrCreateUserState]
    simp only [dispatchByState]
    rcases hphase with h | h | h | h <;> rw [h] <;> rw [hdoc, hcontact] <;>
      exact ⟨rfl, rfl, rfl, rfl⟩

/-- Witness for the amended C5: a plain text message in `AwaitingQuantity`
leaves the store untouched and computes no price. -/
theorem plain_message_preserves_phase_witness :
    (systemStep cfg0 42 (.msg { text := "hello" })
        { redisRead := .ok (some { state := .count }) }).savedVal = none ∧
      (systemStep cfg0 42 (.msg { text := "hello" })
        { redisRead := .ok (some { state := .count }) }).priceVal = none ∧
      (systemStep cfg0 42 (.msg { text := "hello" })
        { redisRead := .ok (some { state := .count }) }).insertedVal = [] ∧
      (systemStep cfg0 42 (.msg { text := "hello" })
        { redisRead := .ok (some { state := .count }) }).deletedVal = false :=
  plain_message_preserves_phase cfg0 42 { text := "hello" }
    { redisRead := .ok (some { state := .count }) } { state := .count }
    rfl (Or.inr (Or.inl rfl)) rfl rfl

/-- Stored state for the C5 counterexample: phase `contact`, quantity 5, paid. -/
def stContact5 : UserState :=
  { state := .contact, count := 5, isPaid := true, contact := "+7700" }

def envContact5 : StepEnv := { redisRead := .ok (some stContact5) }

/-- **C5 (counterexample).** `(AwaitingContact, count-button callback)` has
no listed transition, yet the step writes a state whose phase is
`AwaitingPayment`: the globally registered `count_` callback handler runs
regardless of the stored phase, so the resulting phase differs from the
input phase `AwaitingContact`. -/
theorem stale_count_callback_changes_phase :
    (systemStep cfg0 42 (.cb "count_2") envContact5).savedVal
        = some { state := .paid, count := 2, isPaid := false } ∧
      ConvState.paid ≠ ConvState.contact := by
  decide

theorem paidHandler_saved_count (cfg : Config) (uid : Int) (docOpt : Option Doc)
    (env : StepEnv) (st : UserState) (s' : UserState)
    (hread : env.redisRead = .ok (some st))
    (hs : (paidHandler cfg uid docOpt env).savedVal = some s') :
    s'.count = st.count := by
  rcases docOpt with _ | doc
  · simp [paidHandler, Outcome.savedVal] at hs
  simp only [paidHandler] at hs
  by_cases h1 : hasPdfExt doc.fileName = true
  swap
  · rw [if_pos h1] at hs; simp [Outcome.savedVal] at hs
  rw [if_neg (not_not_intro h1)] at hs
  by_cases h2 : env.getFileOk = true
  swap
  · rw [if_pos h2] at hs; simp [Outcome.savedVal] at hs
  rw [if_neg (not_not_intro h2)] at hs
  by_cases h3 : env.httpGetOk = true
  swap
  · rw [if_pos h3] at hs; simp [Outcome.savedVal] at hs
  rw [if_neg (not_not_intro h3)] at hs
  by_cases h4 : env.mkdirOk = true
  swap
  · rw [if_pos h4] at hs; simp [Outcome.savedVal] at hs
  rw [if_neg (not_not_intro h4)] at hs
  by_cases h5 : env.createOk = true
  swap
  · rw [if_pos h5] at hs; simp [Outcome.savedVal] at hs
  rw [if_neg (not_not_intro h5)] at hs
  by_cases h6 : env.copyOk = true
  swap
  · rw [if_pos h6] at hs; simp [Outcome.savedVal] at hs
  rw [if_neg (not_not_intro h6)] at hs
  rw [hread] at hs
  rcases hpdf : env.readPdf with herr | lines <;> rw [hpdf] at hs <;>
    simp only [] at hs
  · rw [if_pos (by simp)] at hs
    simp [Outcome.savedVal] at hs
  · by_cases h7 : lines.length ≤ 3
    · rw [if_pos h7] at hs; simp [Outcome.savedVal] at hs
    · rw [if_neg h7] at hs
      simp only [Outcome.savedVal, Option.some_inj] at hs
      subst hs
      rfl

theorem shareContact_saved_count (cfg : Config) (uid : Int)
    (contactOpt : Option String) (env : StepEnv) (st : UserState)
    (s' : UserState) (hread : env.redisRead = .ok (some st))
    (hs : (shareContact cfg uid contactOpt env).savedVal = some s') :
    s'.count = st.count := by
  rcases contactOpt with _ | phone
  · simp [shareContact, Outcome.savedVal] at hs
  simp only [shareContact, hread] at hs
  by_cases hcu : env.clientUniqueOk = true
  · rw [if_neg (not_not_intro hcu)] at hs
    simp only [Outcome.savedVal, Option.some_inj] at hs
    subst hs; rfl
  · rw [if_pos hcu] at hs
    simp only [Outcome.savedVal, Option.some_inj] at hs
    subst hs; rfl

/-- The two globally registered quantity-menu callbacks
(src/unnamed/part_000 lines 58-59). -/
def quantityMenuEvent : Event → Prop
  | .cb data => isInitOf "buy_cosmetics".data data.data = true ∨
      isInitOf "count_".data data.data = true
  | .msg _ => False

/-- The degraded contact-share path (src/unnamed/part_006 lines 693-708):
when `ShareContactCallbackHandler`'s own `GetUserState` call fails, the
handler builds the fallback state `{contact, Count 1, paid}`, stores the
shared phone number into it and **saves it**, overwriting whatever quantity
was stored; when the client-uniqueness check then also fails it returns
before `DeleteUserState`, so no reset follows.  In the source this branch is
reached when the dispatcher's read succeeded and the handler's separate
read then failed; the step model couples the two reads, so the behaviour is
exhibited here at the handler itself. -/
theorem shareContact_fallback_overwrites_quantity :
    (shareContact cfg0 42 (some "+77001")
        { redisRead := .error (), clientUniqueOk := false }).savedVal
      = some { state := .contact, count := 1, isPaid := true, contact := "+77001" } ∧
    (shareContact cfg0 42 (some "+77001")
        { redisRead := .error (), clientUniqueOk := false }).deletedVal = false ∧
    (1 : Int) ≠ stContact5.count := by
  decide

/-- **C6 (amended).** Once quantity has been set on entry to
`AwaitingPayment`, every subsequent handler step **whose State-Store read
returns the stored record** and which is not one of the globally registered
quantity-menu callbacks (`buy_cosmetics`, `count_<n>`) preserves the stored
quantity in any state it writes, through `paid` and `contact`, until the
conversation state is reset.  Both carve-outs are real: a stale count
button re-writes the quantity (see the counterexample), and a degraded step
whose State-Store read fails runs against a synthetic fallback state and
may overwrite the stored quantity — in particular a contact share whose own
read fails saves the fallback quantity 1, with no reset when the
uniqueness check also errors (see
`shareContact_fallback_overwrites_quantity`). -/
theorem quantity_immutable_amended (cfg : Config) (uid : Int) (ev : Event)
    (env : StepEnv) (st : UserState) (s' : UserState)
    (hread : env.redisRead = .ok (some st))
    (hphase : st.state = .paid ∨ st.state = .contact)
    (hev : ¬ quantityMenuEvent ev)
    (hsaved : (systemStep cfg uid ev env).savedVal = some s') :
    s'.count = st.count := by
  cases ev with
  | cb data =>
    have h1 : ¬ (isInitOf "buy_cosmetics".data data.data = true) :=
      fun h => hev (Or.inl h)
    have h2 : ¬ (isInitOf "count_".data data.data = true) :=
      fun h => hev (Or.inr h)
    simp only [systemStep] at hsaved
    rw [if_neg h1, if_neg h2] at hsaved
    simp [Outcome.savedVal] at hsaved
  | msg m =>
    simp only [systemStep] at hsaved
    by_cases ht : m.text ∈ adminTexts
    · rw [if_pos ht] at hsaved; simp [Outcome.savedVal] at hsaved
    rw [if_neg ht] at hsaved
    simp only [defaultHandlerMsg, hread, getOrCreateUserState] at hsaved
    rcases hd : m.doc with _ | doc <;> rw [hd] at hsaved <;>
      simp only [] at hsaved
    · simp only [dispatchByState] at hsaved
      rcases hphase with h | h <;> rw [h] at hsaved
      · rw [hd] at hsaved
        exact paidHandler_saved_count cfg uid none env st s' hread hsaved
      · exact shareContact_saved_count cfg uid m.contact env st s' hread hsaved
    · rw [if_neg (by rcases hphase with h | h <;> simp [h])] at hsaved
      simp only [dispatchByState] at hsaved
      rcases hphase with h | h <;> rw [h] at hsaved
      · rw [hd] at hsaved
        exact paidHandler_saved_count cfg uid (some doc) env st s' hread hsaved
      · exact shareContact_saved_count cfg uid m.contact env st s' hread hsaved

/-- Witness for the amended C6: a contact share in the `contact` phase saves
a state whose quantity still equals the stored quantity 5. -/
theorem quantity_immutable_amended_witness :
    ({ state := .contact, count := 5, isPaid := true, contact := "+77001" } : UserState).count
      = stContact5.count :=
  quantity_immutable_amended cfg0 42 (.msg { contact := some "+77001" })
    envContact5 stContact5 _ rfl (Or.inr rfl) (fun h => h) (by decide)

/-- Stored state for the C6 counterexample: quantity 5 was set on entry to
`AwaitingPayment`. -/
def stPaid5 : UserState := { state := .paid, count := 5, isPaid := false }

def envPaid5 : StepEnv := { redisRead := .ok (some stPaid5) }

/-- **C6 (counterexample).** With quantity 5 stored in `AwaitingPayment` and
no reset having occurred, a stale `count_7` button press re-runs
`CountHandler` (globally registered) and writes quantity 7: a subsequent
handler step changed the stored quantity, refuting the claim as stated. -/
theorem stale_count_callback_changes_quantity :
    (systemStep cfg0 42 (.cb "count_7") envPaid5).savedVal
        = some { state := .paid, count := 7, isPaid := false } ∧
      (7 : Int) ≠ stPaid5.count ∧
      (systemStep cfg0 42 (.cb "count_7") envPaid5).deletedVal = false := by
  decide

theorem isInitOf_append : ∀ p r : List Char, isInitOf p (p ++ r) = true
  | [], _ => rfl
  | a :: as, r => by simp [isInitOf, isInitOf_append as r]

theorem splitChar_no_sep (sep : Char) :
    ∀ l : List Char, (∀ c ∈ l, c ≠ sep) → splitChar sep l = [l] := by
  intro l
  induction l with
  | nil => intro _; rfl
  | cons c t ih =>
    intro h
    have hc : c ≠ sep := h c (List.mem_cons_self c t)
    have ht := ih (fun x hx => h x (List.mem_cons_of_mem c hx))
    simp [splitChar, ht, hc]

theorem splitChar_single_sep (sep : Char) (p l : List Char)
    (hp : ∀ c ∈ p, c ≠ sep) (hl : ∀ c ∈ l, c ≠ sep) :
    splitChar sep (p ++ sep :: l) = [p, l] := by
  induction p with
  | nil => simp [splitChar, splitChar_no_sep sep l hl]
  | cons c t ih =>
    have hc : c ≠ sep := hp c (List.mem_cons_self c t)
    have ht := ih (fun x hx => hp x (List.mem_cons_of_mem c hx))
    simp [splitChar, ht, hc]

/-- The callback data `fmt.Sprintf("count_%d", n)` of a quantity button
(src/unnamed/part_006 line 459). -/
def mkCountData (n : Nat) : String := ⟨"count_".data ++ natDecChars n⟩

/-- The quantity menu of `BuyCosmeticsCallbackHandler`
(src/unnamed/part_006 lines 452-463): 6 rows × 5 buttons with numbers
`i*5 + j + 1`, i.e. 1 … 30. -/
def buyMenuData : List (List String) :=
  (List.range 6).map fun i => (List.range 5).map fun j =>
    mkCountData (i * 5 + j + 1)

theorem mkCountData_mem_menu (n : Nat) (h1 : 1 ≤ n) (h2 : n ≤ 30) :
    mkCountData n ∈ buyMenuData.flatten := by
  apply List.mem_flatten.mpr
  refine ⟨(List.range 5).map (fun j => mkCountData ((n - 1) / 5 * 5 + j + 1)), ?_, ?_⟩
  · apply List.mem_map.mpr
    exact ⟨(n - 1) / 5, List.mem_range.mpr (by omega), rfl⟩
  · apply List.mem_map.mpr
    refine ⟨(n - 1) % 5, List.mem_range.mpr (by omega), ?_⟩
    have : (n - 1) / 5 * 5 + (n - 1) % 5 + 1 = n := by omega
    rw [this]

/-- **C7.** For every quantity button `n` in the menu range 1 … 30 —
`mkCountData n` is indeed among the 30 menu buttons — `CountHandler`
computes the total price as exactly `n × Cost` in integer arithmetic with
no rounding, and saves the `AwaitingPayment` state with quantity `n`. -/
theorem countHandler_price_exact (cfg : Config) (uid : Int) (n : Nat)
    (h1 : 1 ≤ n) (h2 : n ≤ 30) :
    mkCountData n ∈ buyMenuData.flatten ∧
      (countHandler cfg uid (some (mkCountData n))).priceVal
        = some ((n : Int) * cfg.cost) ∧
      (countHandler cfg uid (some (mkCountData n))).savedVal
        = some { state := .paid, count := (n : Int), isPaid := false } := by
  have hdigits : ∀ c ∈ natDecChars n, c ≠ '_' := by
    intro c hc
    obtain ⟨d, hd, rfl⟩ := List.mem_map.mp hc
    exact digitChar_ne_underscore (natDecVals_lt_ten n d hd)
  have hinit : isInitOf "count_".data (mkCountData n).data = true := by
    show isInitOf "count_".data ("count_".data ++ natDecChars n) = true
    exact isInitOf_append _ _
  have hsplit : splitChar '_' (mkCountData n).data = ["count".data, natDecChars n] := by
    show splitChar '_' ("count".data ++ '_' :: natDecChars n) = _
    exact splitChar_single_sep '_' _ _ (by decide) hdigits
  have hatoi : atoiChars (natDecChars n) = some (n : Int) :=
    atoiChars_natDecChars n (by unfold maxInt64; omega)
  refine ⟨mkCountData_mem_menu n h1 h2, ?_⟩
  simp only [countHandler]
  rw [if_neg (not_not_intro hinit), hsplit]
  rw [if_neg (show ¬ (["count".data, natDecChars n].length ≠ 2) by simp)]
  have hgetD : ["count".data, natDecChars n].getD 1 [] = natDecChars n := rfl
  rw [hgetD, hatoi]
  exact ⟨rfl, rfl⟩

/-- Witness for C7 at `n = 7`: the button exists and the price is
`7 × 18900`. -/
theorem countHandler_price_exact_witness :
    mkCountData 7 ∈ buyMenuData.flatten ∧
      (countHandler cfg0 42 (some (mkCountData 7))).priceVal
        = some (((7 : Nat) : Int) * cfg0.cost) ∧
      (countHandler cfg0 42 (some (mkCountData 7))).savedVal
        = some { state := .paid, count := ((7 : Nat) : Int), isPaid := false } :=
  countHandler_price_exact cfg0 42 7 (by decide) (by decide)
